import Mathlib

/-!
Shallow embedding of the napari plugin subsystem (`napari/plugins/__init__.py`):
the `PluginManager` call-order export/import, the three typed registries
(dock widgets, function widgets, sample data) and the `get_plugin_widget`
query.  Python dicts are modelled as insertion-ordered association lists,
untrusted plugin payloads as a `PyObj` variant type, and emitted warnings as
an explicit list of `Warning` values returned alongside the updated registry.
The `napari_plugin_engine` hook-caller operations used by the call-order code
are not part of the sources and are modelled from the spec where noted.
-/

/-- A dynamically-typed Python value as it may arrive from a plugin hook:
a plain function (`FunctionType`, with its `__name__`), a callable that is
not a plain function (e.g. a class, also with `__name__`), a string, a
`pathlib.Path`, an int, `None`, a tuple, a list, or a dict with string keys. -/
inductive PyObj where
  | function (name : String)
  | callableClass (name : String)
  | str (s : String)
  | path (s : String)
  | intVal (n : Int)
  | noneVal
  | tuple (items : List PyObj)
  | pylist (items : List PyObj)
  | dict (entries : List (String × PyObj))

/-- `callable(x)` for the embedded values: plain functions and callable
classes are callable, nothing else here is. -/
def PyObj.callable : PyObj → Bool
  | PyObj.function _ => true
  | PyObj.callableClass _ => true
  | _ => false

/-- `isinstance(x, dict)`. -/
def PyObj.isDict : PyObj → Bool
  | PyObj.dict _ => true
  | _ => false

/-- `isinstance(x, tuple)`. -/
def PyObj.isTuple : PyObj → Bool
  | PyObj.tuple _ => true
  | _ => false

/-- `isinstance(x, list)`. -/
def PyObj.isPyList : PyObj → Bool
  | PyObj.pylist _ => true
  | _ => false

/-- `isinstance(x, FunctionType)`. -/
def PyObj.isFunction : PyObj → Bool
  | PyObj.function _ => true
  | _ => false

/-- The `__name__` attribute of a callable. -/
def PyObj.pyName : PyObj → String
  | PyObj.function n => n
  | PyObj.callableClass n => n
  | _ => ""

/-- `str(x)`.  Strings and paths render as themselves; the renderings of the
remaining objects are abstracted as fixed nonempty tokens, matching Python
where `str` of such objects is never the empty string. -/
def pyStr : PyObj → String
  | PyObj.str s => s
  | PyObj.path s => s
  | PyObj.intVal n => toString n
  | PyObj.noneVal => "None"
  | PyObj.function n => "<function " ++ n ++ ">"
  | PyObj.callableClass n => "<class " ++ n ++ ">"
  | PyObj.tuple _ => "<tuple>"
  | PyObj.pylist _ => "<list>"
  | PyObj.dict _ => "<dict>"

/-- Python dict lookup `d.get(k)` on an insertion-ordered association list. -/
def alookup {α : Type} : List (String × α) → String → Option α
  | [], _ => none
  | p :: ps, k => if p.1 == k then some p.2 else alookup ps k

/-- Python dict membership `k in d`. -/
def amem {α : Type} (l : List (String × α)) (k : String) : Bool :=
  l.any (fun p => p.1 == k)

/-- Python dict assignment `d[k] = v`: an existing key keeps its position and
gets the new value, a new key is appended at the end. -/
def aset {α : Type} (l : List (String × α)) (k : String) (v : α) : List (String × α) :=
  if amem l k then l.map (fun p => if p.1 == k then (k, v) else p)
  else l ++ [(k, v)]

/-- Python `d.update(u)`: assign every key of `u` into `d` in order. -/
def dict_update {α : Type} (m upd : List (String × α)) : List (String × α) :=
  upd.foldl (fun acc p => aset acc p.1 p.2) m

/-- The warnings the registry callbacks can emit (`warnings.warn` calls in the
source), tagged with the offending plugin and, where applicable, item name. -/
inductive Warning where
  | invalidTuple (plugin : String)
  | nonCallableWidget (plugin : String)
  | invalidKwargs (plugin : String)
  | dockOverwrite (plugin name : String)
  | nonFunctionWidget (plugin : String)
  | functionOverwrite (plugin name : String)
  | nonDictSampleData (plugin : String)
  | invalidSampleDict (plugin name : String)
  | invalidSampleValue (plugin name : String)
deriving DecidableEq

/-- Keyword-options mapping attached to a dock widget. -/
abbrev KWargs := List (String × PyObj)

/-- `dock_widgets: Dict[str, Dict[str, Tuple[WidgetCallable, Dict[str, Any]]]]`. -/
abbrev DockRegistry := List (String × List (String × (PyObj × KWargs)))

/-- `function_widgets: Dict[str, Dict[str, Callable[..., Any]]]`. -/
abbrev FuncRegistry := List (String × List (String × PyObj))

/-- `_sample_data: Dict[str, Dict[str, SampleDict]]`; each stored sample is
itself a dict with keys `data` and `display_name`. -/
abbrev SampleRegistry := List (String × List (String × KWargs))

/-- `args if isinstance(args, list) else [args]`. -/
def as_item_list : PyObj → List PyObj
  | PyObj.pylist items => items
  | a => [a]

/-- `func.__name__.replace(UNDERSCORE, SPACE)` used for function widget names. -/
def underscore_to_spaces (s : String) : String :=
  String.mk (s.toList.map (fun c => if c = '_' then ' ' else c))

/-- Helper for `camel_to_spaces`: walk the characters keeping the previous one. -/
def camelAux : Char → List Char → List Char
  | _, [] => []
  | prev, c :: rest =>
    if c.isUpper && prev.isLower then ' ' :: c :: camelAux c rest
    else c :: camelAux c rest

/-- Modelled from the spec: `camel_to_spaces` lives in `napari.utils.misc`,
which is not among the sources here.  The spec describes it as the camel-case
to spaced-words transform used for default dock widget names, so a space is
inserted before each uppercase letter that follows a lowercase one. -/
def camel_to_spaces (s : String) : String :=
  match s.toList with
  | [] => ""
  | c :: rest => String.mk (c :: camelAux c rest)

/-- The final store step of `register_dock_widget` for one accepted item:
create the plugin dict if absent, warn if the name is already registered for
this plugin, then assign `dock_widgets[plugin_name][name] = (cls, kwargs)`. -/
def dock_widget_store (plugin_name name : String) (cls : PyObj) (kwargs : KWargs)
    (reg : DockRegistry) (ws : List Warning) : DockRegistry × List Warning :=
  match alookup reg plugin_name with
  | none => (aset reg plugin_name [(name, (cls, kwargs))], ws)
  | some m =>
      (aset reg plugin_name (aset m name (cls, kwargs)),
       if amem m name then ws ++ [Warning.dockOverwrite plugin_name name] else ws)

/-- The validation part of `register_dock_widget` for one item once the
`(cls, kwargs)` pair has been split: reject a non-callable `cls`, reject a
non-dict kwargs, otherwise compute the widget name
(`str(kwargs.get(NAME, EMPTY)) or camel_to_spaces(cls.__name__)`) and store. -/
def register_dock_widget_checked (plugin_name : String) (cls kwObj : PyObj)
    (reg : DockRegistry) (ws : List Warning) : DockRegistry × List Warning :=
  if cls.callable = false then (reg, ws ++ [Warning.nonCallableWidget plugin_name])
  else
    match kwObj with
    | PyObj.dict kwargs =>
        let name0 := pyStr ((alookup kwargs "name").getD (PyObj.str ""))
        dock_widget_store plugin_name
          (if name0.isEmpty then camel_to_spaces cls.pyName else name0)
          cls kwargs reg ws
    | _ => (reg, ws ++ [Warning.invalidKwargs plugin_name])

/-- One iteration of the `register_dock_widget` loop: an empty tuple is warned
about and skipped, a nonempty tuple is split into `arg[0]` and
`arg[1] if len(arg) > 1 else dict()`, anything else is the widget itself with
empty kwargs. -/
def register_dock_widget_item (plugin_name : String) (reg : DockRegistry)
    (ws : List Warning) (arg : PyObj) : DockRegistry × List Warning :=
  match arg with
  | PyObj.tuple [] => (reg, ws ++ [Warning.invalidTuple plugin_name])
  | PyObj.tuple (c :: rest) =>
      register_dock_widget_checked plugin_name c ((rest.head?).getD (PyObj.dict [])) reg ws
  | a => register_dock_widget_checked plugin_name a (PyObj.dict []) reg ws

/-- `register_dock_widget(args, hookimpl)` acting on an explicit registry
state and returning the warnings it emitted. -/
def register_dock_widget (args : PyObj) (plugin_name : String)
    (reg : DockRegistry) : DockRegistry × List Warning :=
  (as_item_list args).foldl
    (fun acc arg => register_dock_widget_item plugin_name acc.1 acc.2 arg) (reg, [])

/-- The store step of `register_function_widget` for one accepted function. -/
def function_widget_store (plugin_name name : String) (func : PyObj)
    (reg : FuncRegistry) (ws : List Warning) : FuncRegistry × List Warning :=
  match alookup reg plugin_name with
  | none => (aset reg plugin_name [(name, func)], ws)
  | some m =>
      (aset reg plugin_name (aset m name func),
       if amem m name then ws ++ [Warning.functionOverwrite plugin_name name] else ws)

/-- One iteration of the `register_function_widget` loop: the item must be an
`isinstance(func, FunctionType)` plain function, otherwise it is warned about
and skipped; the stored name is `func.__name__.replace(UNDERSCORE, SPACE)`. -/
def register_function_widget_item (plugin_name : String) (reg : FuncRegistry)
    (ws : List Warning) (func : PyObj) : FuncRegistry × List Warning :=
  match func with
  | PyObj.function fn =>
      function_widget_store plugin_name (underscore_to_spaces fn) (PyObj.function fn) reg ws
  | _ => (reg, ws ++ [Warning.nonFunctionWidget plugin_name])

/-- `register_function_widget(args, hookimpl)` on an explicit registry state. -/
def register_function_widget (args : PyObj) (plugin_name : String)
    (reg : FuncRegistry) : FuncRegistry × List Warning :=
  (as_item_list args).foldl
    (fun acc f => register_function_widget_item plugin_name acc.1 acc.2 f) (reg, [])

/-- `callable(d[DATA]) or isinstance(d[DATA], (str, Path))`. -/
def sample_data_valid : PyObj → Bool
  | PyObj.function _ => true
  | PyObj.callableClass _ => true
  | PyObj.str _ => true
  | PyObj.path _ => true
  | _ => false

/-- One iteration of the `register_sample_data` normalization loop over
`data.items()`: a dict value must carry both `data` and `display_name` keys,
a non-dict value is coerced to such a dict, and the `data` field must be
callable or a string or path; failures warn and skip the item. -/
def sample_item_step (plugin_name : String) (acc : List (String × KWargs) × List Warning)
    (p : String × PyObj) : List (String × KWargs) × List Warning :=
  match p.2 with
  | PyObj.dict d =>
      if (alookup d "data").isNone || (alookup d "display_name").isNone then
        (acc.1, acc.2 ++ [Warning.invalidSampleDict plugin_name p.1])
      else if sample_data_valid ((alookup d "data").getD PyObj.noneVal) then
        (aset acc.1 p.1 d, acc.2)
      else (acc.1, acc.2 ++ [Warning.invalidSampleValue plugin_name p.1])
  | v =>
      if sample_data_valid v then
        (aset acc.1 p.1 [("data", v), ("display_name", PyObj.str p.1)], acc.2)
      else (acc.1, acc.2 ++ [Warning.invalidSampleValue plugin_name p.1])

/-- `_sample_data[plugin_name].update(_data)` on the registry. -/
def updatePlugin (reg : SampleRegistry) (plugin_name : String)
    (upd : List (String × KWargs)) : SampleRegistry :=
  reg.map (fun q => if q.1 == plugin_name then (q.1, dict_update q.2 upd) else q)

/-- `register_sample_data(data, hookimpl)` on an explicit registry state: a
non-dict payload is warned about and ignored; otherwise each item is
normalized by `sample_item_step`, the plugin key is created if absent, and the
accepted entries are merged in with dict `update`. -/
def register_sample_data (data : PyObj) (plugin_name : String)
    (reg : SampleRegistry) : SampleRegistry × List Warning :=
  match data with
  | PyObj.dict items =>
      let step := items.foldl (sample_item_step plugin_name) ([], [])
      let reg1 := if amem reg plugin_name then reg else reg ++ [(plugin_name, [])]
      (updatePlugin reg1 plugin_name step.1, step.2)
  | _ => (reg, [Warning.nonDictSampleData plugin_name])

/-- The errors `get_plugin_widget` can raise: `KeyError` when the plugin has
no widgets, `ValueError` when the widget name is ambiguous, `KeyError` when
the named widget does not exist. -/
inductive WidgetLookupError where
  | noWidgets (plugin : String)
  | ambiguous (plugin : String)
  | missingWidget (plugin widget : String)
deriving DecidableEq

/-- `get_plugin_widget(plugin_name, widget_name)`: `None` is modelled as
`Option.none`, and the truthiness test `if not widget_name` holds for both
`None` and the empty string. -/
def get_plugin_widget (reg : DockRegistry) (plugin_name : String)
    (widget_name : Option String) : Except WidgetLookupError (PyObj × KWargs) :=
  let plg_wdgs := (alookup reg plugin_name).getD []
  if plg_wdgs.isEmpty then Except.error (WidgetLookupError.noWidgets plugin_name)
  else if (widget_name.getD "").isEmpty then
    if plg_wdgs.length > 1 then Except.error (WidgetLookupError.ambiguous plugin_name)
    else
      match plg_wdgs with
      | (_, v) :: _ => Except.ok v
      | [] => Except.error (WidgetLookupError.noWidgets plugin_name)
  else
    match alookup plg_wdgs (widget_name.getD "") with
    | some v => Except.ok v
    | none => Except.error (WidgetLookupError.missingWidget plugin_name (widget_name.getD ""))

/-- One hook implementation as the call-order code sees it: its owning plugin
name and its enabled flag. -/
structure HookImplementation where
  plugin_name : String
  enabled : Bool
deriving DecidableEq

/-- One record of a Call-Order Record: `{plugin: ..., enabled: ...}`. -/
structure OrderEntry where
  plugin : String
  enabled : Bool
deriving DecidableEq

/-- Modelled from the spec: a `napari_plugin_engine` hook caller, reduced to
what the call-order code observes.  `impls` is the internal storage order
returned by `get_hookimpls`; dispatch visits it in reverse, so the
last-registered implementation has highest priority. -/
structure HookCaller where
  is_firstresult : Bool
  impls : List HookImplementation
deriving DecidableEq

/-- The `PluginManager` of the source restricted to its `hooks` mapping from
hook-spec name to hook caller. -/
structure PluginManager where
  hooks : List (String × HookCaller)
deriving DecidableEq

/-- The plugin names of a list of implementations, in order. -/
def implNames (l : List HookImplementation) : List String :=
  l.map (fun i => i.plugin_name)

/-- Modelled from the spec: `HookCaller.get_hookimpls` returns the stored
implementation list (whose reverse is the dispatch order). -/
def HookCaller.get_hookimpls (c : HookCaller) : List HookImplementation := c.impls

/-- The dict `{plugin: impl.plugin_name, enabled: impl.enabled}` built by
`call_order`. -/
def toOrderEntry (i : HookImplementation) : OrderEntry :=
  OrderEntry.mk i.plugin_name i.enabled

/-- The dispatch order of a caller as `(plugin, enabled)` records:
highest-priority implementation first. -/
def HookCaller.dispatch_entries (c : HookCaller) : List OrderEntry :=
  c.impls.reverse.map toOrderEntry

/-- Modelled from the spec: `get_plugin_implementation(plugin)` finds the
implementation owned by `plugin`, raising `KeyError` (here `none`) if the
plugin has no implementation for this spec. -/
def HookCaller.get_plugin_implementation (c : HookCaller) (plugin : String) :
    Option HookImplementation :=
  c.impls.find? (fun i => i.plugin_name == plugin)

/-- Modelled from the spec: the assignment `imp.enabled = ...` on the
implementation owned by `plugin`. -/
def HookCaller.set_enabled (c : HookCaller) (plugin : String) (e : Bool) : HookCaller :=
  HookCaller.mk c.is_firstresult
    (c.impls.map (fun i => if i.plugin_name == plugin then HookImplementation.mk i.plugin_name e else i))

/-- Modelled from the spec: `bring_to_front` in dispatch-order terms.  The
implementations whose plugin is named are placed first in the given order
(names with no implementation are skipped), the remaining implementations
keep their relative dispatch order after them. -/
def bring_to_front_dispatch (disp : List HookImplementation) (names : List String) :
    List HookImplementation :=
  (names.filterMap (fun n => disp.find? (fun i => i.plugin_name == n)))
    ++ disp.filter (fun i => !(names.contains i.plugin_name))

/-- Modelled from the spec: `HookCaller.bring_to_front` acting on the stored
list, obtained by transporting `bring_to_front_dispatch` through the
storage-is-reversed-dispatch convention. -/
def HookCaller.bring_to_front (c : HookCaller) (names : List String) : HookCaller :=
  HookCaller.mk c.is_firstresult ((bring_to_front_dispatch c.impls.reverse names).reverse)

/-- The body of `PluginManager.call_order`: skip hooks that are not
first-result, skip hooks with at most one implementation, and export the
remaining ones as `(plugin, enabled)` records over `reversed(impls)`. -/
def call_order_list (hooks : List (String × HookCaller)) : List (String × List OrderEntry) :=
  hooks.filterMap (fun h =>
    if h.2.is_firstresult = false then none
    else if 1 < h.2.get_hookimpls.length then
      some (h.1, h.2.get_hookimpls.reverse.map toOrderEntry)
    else none)

/-- `PluginManager.call_order()`. -/
def PluginManager.call_order (pm : PluginManager) : List (String × List OrderEntry) :=
  call_order_list pm.hooks

/-- One iteration of the inner `set_call_order` loop: look the plugin up,
skip it on `KeyError`, otherwise set its enabled flag and append its name to
the reordering list. -/
def call_order_step (acc : HookCaller × List String) (p : OrderEntry) :
    HookCaller × List String :=
  match acc.1.get_plugin_implementation p.plugin with
  | none => acc
  | some _ => (acc.1.set_enabled p.plugin p.enabled, acc.2 ++ [p.plugin])

/-- The `set_call_order` body for a single hook caller: process the record
entries in order, then `bring_to_front` the surviving names if any were found. -/
def HookCaller.set_call_order_single (c : HookCaller) (entries : List OrderEntry) : HookCaller :=
  let step := entries.foldl call_order_step (c, [])
  if step.2.isEmpty then step.1 else step.1.bring_to_front step.2

/-- `PluginManager.set_call_order(new_order)`: every hook caller processes
`new_order.get(spec_name, [])`. -/
def PluginManager.set_call_order (pm : PluginManager)
    (new_order : List (String × List OrderEntry)) : PluginManager :=
  PluginManager.mk
    (pm.hooks.map (fun h => (h.1, h.2.set_call_order_single ((alookup new_order h.1).getD []))))

/-! ### Association-list lemmas -/

theorem amem_cons {α : Type} (p : String × α) (l : List (String × α)) (k : String) :
    amem (p :: l) k = ((p.1 == k) || amem l k) := by
  simp [amem, List.any_cons]

theorem amem_iff_mem_keys {α : Type} (l : List (String × α)) (k : String) :
    amem l k = true ↔ k ∈ l.map Prod.fst := by
  induction l with
  | nil => simp [amem]
  | cons p ps ih =>
      cases hpk : (p.1 == k) with
      | true =>
          have : p.1 = k := beq_iff_eq.mp hpk
          simp [amem_cons, hpk, this]
      | false =>
          have : ¬ k = p.1 := fun h => by simp [h.symm] at hpk
          simp [amem_cons, hpk, ih, this]

theorem alookup_isSome_iff_amem {α : Type} (l : List (String × α)) (k : String) :
    (alookup l k).isSome = true ↔ amem l k = true := by
  induction l with
  | nil => simp [alookup, amem]
  | cons p ps ih =>
      cases hpk : (p.1 == k) with
      | true => simp [alookup, amem_cons, hpk]
      | false => simp [alookup, amem_cons, hpk, ih]

theorem alookup_eq_none_of_amem_false {α : Type} (l : List (String × α)) (k : String)
    (h : amem l k = false) : alookup l k = none := by
  have hiff := alookup_isSome_iff_amem l k
  cases hl : alookup l k with
  | none => rfl
  | some v => simp [hl, h] at hiff

theorem amem_true_of_alookup_some {α : Type} {l : List (String × α)} {k : String} {v : α}
    (h : alookup l k = some v) : amem l k = true := by
  have hiff := alookup_isSome_iff_amem l k
  simp [h] at hiff
  exact hiff

theorem mem_keys_of_alookup_some {α : Type} {l : List (String × α)} {k : String} {v : α}
    (h : alookup l k = some v) : k ∈ l.map Prod.fst :=
  (amem_iff_mem_keys l k).mp (amem_true_of_alookup_some h)

theorem alookup_append_of_amem_false {α : Type} (l l2 : List (String × α)) (k : String)
    (h : amem l k = false) : alookup (l ++ l2) k = alookup l2 k := by
  induction l with
  | nil => simp [alookup]
  | cons p ps ih =>
      rw [amem_cons] at h
      rcases Bool.or_eq_false_iff.mp h with ⟨h1, h2⟩
      rw [List.cons_append]
      show (if (p.1 == k) = true then some p.2 else alookup (ps ++ l2) k) = alookup l2 k
      rw [if_neg (by simp [h1])]
      exact ih h2

theorem aset_of_amem_true {α : Type} (l : List (String × α)) (k : String) (v : α)
    (h : amem l k = true) :
    aset l k v = l.map (fun p => if p.1 == k then (k, v) else p) := by
  unfold aset
  rw [h]
  rfl

theorem aset_of_amem_false {α : Type} (l : List (String × α)) (k : String) (v : α)
    (h : amem l k = false) : aset l k v = l ++ [(k, v)] := by
  unfold aset
  rw [h]
  rfl

theorem alookup_replace {α : Type} (l : List (String × α)) (k : String) (v : α) :
    alookup (l.map (fun p => if p.1 == k then (k, v) else p)) k
      = (alookup l k).map (fun _ => v) := by
  induction l with
  | nil => simp [alookup]
  | cons p ps ih =>
      cases hpk : (p.1 == k) with
      | true =>
          rw [List.map_cons, if_pos hpk]
          show (if (k == k) = true then some v else _) = ((if (p.1 == k) = true then some p.2 else alookup ps k).map (fun _ => v))
          rw [if_pos (beq_self_eq_true k), if_pos hpk]
          rfl
      | false =>
          have hpk' : ¬ ((p.1 == k) = true) := by simp [hpk]
          rw [List.map_cons, if_neg hpk']
          show (if (p.1 == k) = true then some p.2 else alookup (ps.map _) k)
              = ((if (p.1 == k) = true then some p.2 else alookup ps k).map (fun _ => v))
          rw [if_neg hpk', if_neg hpk']
          exact ih

theorem alookup_aset_self {α : Type} (l : List (String × α)) (k : String) (v : α) :
    alookup (aset l k v) k = some v := by
  cases h : amem l k with
  | true =>
      have hs := (alookup_isSome_iff_amem l k).mpr h
      cases hl : alookup l k with
      | none => simp [hl] at hs
      | some w =>
          rw [aset_of_amem_true _ _ _ h, alookup_replace, hl]
          rfl
  | false =>
      rw [aset_of_amem_false _ _ _ h, alookup_append_of_amem_false _ _ _ h]
      show (if (k == k) = true then some v else _) = some v
      rw [if_pos (beq_self_eq_true k)]

theorem keys_aset_of_amem {α : Type} (l : List (String × α)) (k : String) (v : α)
    (h : amem l k = true) : (aset l k v).map Prod.fst = l.map Prod.fst := by
  rw [aset_of_amem_true _ _ _ h, List.map_map]
  refine List.map_congr_left (fun p _ => ?_)
  show (if (p.1 == k) = true then ((k, v) : String × α) else p).1 = p.1
  cases hpk : (p.1 == k) with
  | true =>
      rw [if_pos rfl]
      exact (beq_iff_eq.mp hpk).symm
  | false => rfl

theorem count_keys_aset_eq_one {α : Type} (l : List (String × α)) (k : String) (v : α)
    (hnd : (l.map Prod.fst).Nodup) (h : amem l k = true) :
    ((aset l k v).map Prod.fst).count k = 1 := by
  rw [keys_aset_of_amem l k v h]
  exact List.count_eq_one_of_mem hnd ((amem_iff_mem_keys l k).mp h)

theorem updatePlugin_of_alookup_some (reg : SampleRegistry) (pn : String)
    (m : List (String × KWargs)) (upd : List (String × KWargs))
    (h : alookup reg pn = some m) :
    alookup (updatePlugin reg pn upd) pn = some (dict_update m upd) := by
  induction reg with
  | nil => simp [alookup] at h
  | cons q qs ih =>
      cases hq : (q.1 == pn) with
      | true =>
          simp only [alookup, hq, if_true, Option.some_inj] at h
          subst h
          simp [updatePlugin, alookup, hq]
      | false =>
          simp only [alookup, hq, Bool.false_eq_true, if_false] at h
          simp only [updatePlugin, List.map_cons, hq, Bool.false_eq_true, if_false, alookup]
          exact ih h

theorem updatePlugin_append_fresh (reg : SampleRegistry) (pn : String)
    (m : List (String × KWargs)) (upd : List (String × KWargs))
    (h : amem reg pn = false) :
    updatePlugin (reg ++ [(pn, m)]) pn upd = reg ++ [(pn, dict_update m upd)] := by
  simp only [updatePlugin, List.map_append]
  congr 1
  · have heq : List.map (fun q => if q.1 == pn then (q.1, dict_update q.2 upd) else q) reg
        = List.map id reg := by
      refine List.map_congr_left (fun q hq => ?_)
      have hq' : (q.1 == pn) = false := by
        have := List.any_eq_false.mp h q hq
        cases hqq : (q.1 == pn) with
        | false => rfl
        | true => exact absurd hqq this
      simp [hq']
    rw [heq, List.map_id]
  · simp

/-! ### Hook-caller lemmas for the call-order claims -/

/-- Update one implementation with the enabled flag its (unique) record entry
carries, if any. -/
def applyEnabled (entries : List OrderEntry) (i : HookImplementation) : HookImplementation :=
  match entries.find? (fun p => p.plugin == i.plugin_name) with
  | some p => HookImplementation.mk i.plugin_name p.enabled
  | none => i

/-- Apply the `set_enabled` assignments of all record entries in order. -/
def applyAll (entries : List OrderEntry) (c : HookCaller) : HookCaller :=
  entries.foldl (fun c p => c.set_enabled p.plugin p.enabled) c

/-- The record entries whose plugin currently has an implementation in `c`;
`set_call_order` skips the others. -/
def entriesFound (c : HookCaller) (entries : List OrderEntry) : List OrderEntry :=
  entries.filter (fun p => (implNames c.impls).contains p.plugin)

theorem contains_iff_mem {l : List String} {a : String} : l.contains a = true ↔ a ∈ l := by
  exact List.elem_iff

theorem implNames_set_enabled (c : HookCaller) (k : String) (e : Bool) :
    implNames (c.set_enabled k e).impls = implNames c.impls := by
  unfold HookCaller.set_enabled implNames
  rw [List.map_map]
  refine List.map_congr_left (fun i _ => ?_)
  show (if (i.plugin_name == k) = true then HookImplementation.mk i.plugin_name e else i).plugin_name
      = i.plugin_name
  cases hik : (i.plugin_name == k) <;> rfl

theorem gpi_isSome_of_mem (c : HookCaller) (k : String) (h : k ∈ implNames c.impls) :
    ∃ i, c.get_plugin_implementation k = some i := by
  rcases List.mem_map.mp h with ⟨i, hi, hik⟩
  have : (c.impls.find? (fun j => j.plugin_name == k)).isSome := by
    rw [List.find?_isSome]
    exact ⟨i, hi, beq_iff_eq.mpr hik⟩
  rcases Option.isSome_iff_exists.mp this with ⟨j, hj⟩
  exact ⟨j, hj⟩

theorem gpi_eq_none_of_not_mem (c : HookCaller) (k : String) (h : k ∉ implNames c.impls) :
    c.get_plugin_implementation k = none := by
  unfold HookCaller.get_plugin_implementation
  rw [List.find?_eq_none]
  intro i hi
  intro hik
  exact h (List.mem_map.mpr ⟨i, hi, beq_iff_eq.mp hik⟩)

theorem call_order_step_found (acc : HookCaller × List String) (p : OrderEntry)
    (i : HookImplementation) (h : acc.1.get_plugin_implementation p.plugin = some i) :
    call_order_step acc p = (acc.1.set_enabled p.plugin p.enabled, acc.2 ++ [p.plugin]) := by
  unfold call_order_step
  rw [h]

theorem call_order_step_missing (acc : HookCaller × List String) (p : OrderEntry)
    (h : acc.1.get_plugin_implementation p.plugin = none) :
    call_order_step acc p = acc := by
  unfold call_order_step
  rw [h]

theorem foldl_call_order_step (entries : List OrderEntry) (c : HookCaller) (acc : List String) :
    entries.foldl call_order_step (c, acc)
      = (applyAll (entriesFound c entries) c,
         acc ++ (entriesFound c entries).map OrderEntry.plugin) := by
  induction entries generalizing c acc with
  | nil => simp [entriesFound, applyAll]
  | cons p rest ih =>
      cases hm : (implNames c.impls).contains p.plugin with
      | false =>
          have hpm : p.plugin ∉ implNames c.impls := by
            intro hmem
            rw [contains_iff_mem.mpr hmem] at hm
            exact Bool.noConfusion hm
          have hnone : c.get_plugin_implementation p.plugin = none :=
            gpi_eq_none_of_not_mem c p.plugin hpm
          have hf : entriesFound c (p :: rest) = entriesFound c rest := by
            simp [entriesFound, List.filter_cons, hm, hpm]
          rw [List.foldl_cons, call_order_step_missing _ _ hnone, ih, hf]
      | true =>
          have hpm : p.plugin ∈ implNames c.impls := contains_iff_mem.mp hm
          obtain ⟨i, hi⟩ := gpi_isSome_of_mem c p.plugin hpm
          have hef : entriesFound (c.set_enabled p.plugin p.enabled) rest = entriesFound c rest := by
            unfold entriesFound
            rw [implNames_set_enabled]
          have hf : entriesFound c (p :: rest) = p :: entriesFound c rest := by
            simp [entriesFound, List.filter_cons, hm, hpm]
          rw [List.foldl_cons, call_order_step_found _ _ _ hi, ih, hef, hf]
          simp [applyAll, List.append_assoc]

theorem applyEnabled_plugin_name (entries : List OrderEntry) (i : HookImplementation) :
    (applyEnabled entries i).plugin_name = i.plugin_name := by
  unfold applyEnabled
  cases h : entries.find? (fun p => p.plugin == i.plugin_name) <;> rfl

theorem applyEnabled_nil (i : HookImplementation) : applyEnabled [] i = i := rfl

theorem applyEnabled_cons_comm (p : OrderEntry) (rest : List OrderEntry)
    (hp : p.plugin ∉ rest.map OrderEntry.plugin) (i : HookImplementation) :
    applyEnabled rest (if i.plugin_name == p.plugin then HookImplementation.mk i.plugin_name p.enabled else i)
      = applyEnabled (p :: rest) i := by
  cases hip : (i.plugin_name == p.plugin) with
  | true =>
      have hip' : i.plugin_name = p.plugin := beq_iff_eq.mp hip
      show applyEnabled rest (HookImplementation.mk i.plugin_name p.enabled) = applyEnabled (p :: rest) i
      unfold applyEnabled
      have hrest : rest.find? (fun q => q.plugin == (HookImplementation.mk i.plugin_name p.enabled).plugin_name) = none := by
        rw [List.find?_eq_none]
        intro q hq hqp
        exact hp (hip' ▸ (beq_iff_eq.mp hqp) ▸ List.mem_map.mpr ⟨q, hq, rfl⟩)
      rw [hrest]
      have hhead : (p :: rest).find? (fun q => q.plugin == i.plugin_name) = some p := by
        have : (p.plugin == i.plugin_name) = true := beq_iff_eq.mpr hip'.symm
        simp [List.find?_cons, this]
      rw [hhead]
  | false =>
      show applyEnabled rest i = applyEnabled (p :: rest) i
      unfold applyEnabled
      have hhead : (p :: rest).find? (fun q => q.plugin == i.plugin_name) = rest.find? (fun q => q.plugin == i.plugin_name) := by
        have : (p.plugin == i.plugin_name) = false := by
          cases hq : (p.plugin == i.plugin_name) with
          | false => rfl
          | true => exact absurd (beq_iff_eq.mpr (beq_iff_eq.mp hq).symm) (by simp [hip])
        simp [List.find?_cons, this]
      rw [hhead]

theorem applyAll_impls (entries : List OrderEntry) (c : HookCaller)
    (h : (entries.map OrderEntry.plugin).Nodup) :
    (applyAll entries c).impls = c.impls.map (applyEnabled entries) := by
  induction entries generalizing c with
  | nil =>
      show c.impls = c.impls.map (applyEnabled [])
      exact ((List.map_congr_left (fun i _ => applyEnabled_nil i)).trans (List.map_id c.impls)).symm
  | cons p rest ih =>
      rw [List.map_cons] at h
      have hp : p.plugin ∉ rest.map OrderEntry.plugin := (List.nodup_cons.mp h).1
      have hrest : (rest.map OrderEntry.plugin).Nodup := (List.nodup_cons.mp h).2
      show (applyAll rest (c.set_enabled p.plugin p.enabled)).impls = c.impls.map (applyEnabled (p :: rest))
      rw [ih _ hrest]
      show (c.impls.map (fun i => if i.plugin_name == p.plugin then HookImplementation.mk i.plugin_name p.enabled else i)).map (applyEnabled rest) = _
      rw [List.map_map]
      exact List.map_congr_left (fun i _ => applyEnabled_cons_comm p rest hp i)

theorem find_key_unique {α : Type} (key : α → String) (l : List α) (x : α)
    (hnd : (l.map key).Nodup) (hx : x ∈ l) :
    l.find? (fun y => key y == key x) = some x := by
  induction l with
  | nil => cases hx
  | cons a as ih =>
      rw [List.map_cons] at hnd
      rcases List.nodup_cons.mp hnd with ⟨ha, has⟩
      rcases List.mem_cons.mp hx with hxa | hxas
      · subst hxa
        simp [List.find?_cons, beq_self_eq_true]
      · have hne : (key a == key x) = false := by
          cases hk : (key a == key x) with
          | false => rfl
          | true =>
              exact absurd ((beq_iff_eq.mp hk) ▸ List.mem_map.mpr ⟨x, hxas, rfl⟩) ha
        simp only [List.find?_cons, hne]
        exact ih has hxas

theorem applyEnabled_not_found (F : List OrderEntry) (i : HookImplementation)
    (h : i.plugin_name ∉ F.map OrderEntry.plugin) : applyEnabled F i = i := by
  unfold applyEnabled
  have hfn : F.find? (fun q => q.plugin == i.plugin_name) = none := by
    rw [List.find?_eq_none]
    intro q hq hqi
    exact h (List.mem_map.mpr ⟨q, hq, beq_iff_eq.mp hqi⟩)
  rw [hfn]

theorem filterMap_map_find (entries : List OrderEntry) (D : List HookImplementation)
    (h : ∀ p ∈ entries, ∃ j, D.find? (fun i => i.plugin_name == p.plugin) = some j ∧ toOrderEntry j = p) :
    (entries.filterMap (fun p => D.find? (fun i => i.plugin_name == p.plugin))).map toOrderEntry
      = entries := by
  induction entries with
  | nil => rfl
  | cons p rest ih =>
      obtain ⟨j, hj, hje⟩ := h p (List.mem_cons_self p rest)
      rw [List.filterMap_cons, hj, List.map_cons, hje,
        ih (fun q hq => h q (List.mem_cons_of_mem p hq))]

theorem find_in_updated (c : HookCaller) (F : List OrderEntry) (p : OrderEntry)
    (hN : (implNames c.impls).Nodup) (hF : (F.map OrderEntry.plugin).Nodup)
    (hp : p ∈ F) (hmem : p.plugin ∈ implNames c.impls) :
    ∃ j, ((c.impls.reverse.map (applyEnabled F)).find? (fun i => i.plugin_name == p.plugin)) = some j
      ∧ toOrderEntry j = p := by
  rcases List.mem_map.mp hmem with ⟨i0, hi0, hi0n⟩
  have hi0r : i0 ∈ c.impls.reverse := List.mem_reverse.mpr hi0
  have hj0 : applyEnabled F i0 ∈ c.impls.reverse.map (applyEnabled F) :=
    List.mem_map_of_mem _ hi0r
  have hDkeys : ((c.impls.reverse.map (applyEnabled F)).map (fun i => i.plugin_name)).Nodup := by
    rw [List.map_map]
    have h1 : c.impls.reverse.map ((fun i : HookImplementation => i.plugin_name) ∘ applyEnabled F)
        = c.impls.reverse.map (fun i => i.plugin_name) :=
      List.map_congr_left (fun i _ => applyEnabled_plugin_name F i)
    rw [h1, List.map_reverse]
    exact List.nodup_reverse.mpr hN
  have hfind := find_key_unique (fun i => i.plugin_name)
    (c.impls.reverse.map (applyEnabled F)) (applyEnabled F i0) hDkeys hj0
  have hkey : (applyEnabled F i0).plugin_name = p.plugin :=
    (applyEnabled_plugin_name F i0).trans hi0n
  have hfind2 : (c.impls.reverse.map (applyEnabled F)).find?
      (fun y => y.plugin_name == (applyEnabled F i0).plugin_name) = some (applyEnabled F i0) := hfind
  rw [hkey] at hfind2
  refine ⟨applyEnabled F i0, hfind2, ?_⟩
  have hfp : F.find? (fun q => q.plugin == i0.plugin_name) = some p := by
    have hlam : (fun q : OrderEntry => q.plugin == i0.plugin_name)
        = (fun q : OrderEntry => q.plugin == p.plugin) := by
      funext q
      rw [hi0n]
    rw [hlam]
    exact find_key_unique OrderEntry.plugin F p hF hp
  show toOrderEntry (applyEnabled F i0) = p
  unfold applyEnabled
  rw [hfp]
  show OrderEntry.mk i0.plugin_name p.enabled = p
  rw [hi0n]

theorem set_call_order_single_found_nil (c : HookCaller) (entries : List OrderEntry)
    (h : entriesFound c entries = []) : c.set_call_order_single entries = c := by
  unfold HookCaller.set_call_order_single
  rw [foldl_call_order_step, h]
  rfl

theorem set_call_order_single_found_ne (c : HookCaller) (entries : List OrderEntry)
    (hN : (implNames c.impls).Nodup) (hE : (entries.map OrderEntry.plugin).Nodup)
    (hne : entriesFound c entries ≠ []) :
    ((c.set_call_order_single entries).impls.reverse).map toOrderEntry
      = entriesFound c entries
        ++ (c.impls.reverse.filter
            (fun i => !(((entriesFound c entries).map OrderEntry.plugin).contains i.plugin_name))).map toOrderEntry := by
  have hFnd : ((entriesFound c entries).map OrderEntry.plugin).Nodup :=
    hE.sublist ((List.filter_sublist entries).map OrderEntry.plugin)
  have hnames_ne : (entriesFound c entries).map OrderEntry.plugin ≠ [] := by
    intro hnil
    exact hne (by simpa using hnil)
  have hstep : c.set_call_order_single entries
      = (applyAll (entriesFound c entries) c).bring_to_front
          ((entriesFound c entries).map OrderEntry.plugin) := by
    unfold HookCaller.set_call_order_single
    rw [foldl_call_order_step]
    show (if (([] : List String) ++ (entriesFound c entries).map OrderEntry.plugin).isEmpty then _ else _) = _
    rw [List.nil_append, if_neg (by simp [List.isEmpty_iff, hnames_ne])]
  rw [hstep]
  show ((bring_to_front_dispatch (applyAll (entriesFound c entries) c).impls.reverse
      ((entriesFound c entries).map OrderEntry.plugin)).reverse.reverse).map toOrderEntry = _
  rw [List.reverse_reverse]
  have hD : (applyAll (entriesFound c entries) c).impls.reverse
      = c.impls.reverse.map (applyEnabled (entriesFound c entries)) := by
    rw [applyAll_impls _ _ hFnd, List.map_reverse]
  unfold bring_to_front_dispatch
  rw [hD, List.map_append]
  congr 1
  · rw [List.filterMap_map]
    refine filterMap_map_find (entriesFound c entries) _ (fun p hp => ?_)
    have hmem : p.plugin ∈ implNames c.impls := by
      have hpred := List.of_mem_filter hp
      exact contains_iff_mem.mp hpred
    exact find_in_updated c (entriesFound c entries) p hN hFnd hp hmem
  · rw [List.filter_map]
    have hpred : ∀ i ∈ c.impls.reverse,
        ((fun i : HookImplementation => !(((entriesFound c entries).map OrderEntry.plugin).contains i.plugin_name)) ∘ applyEnabled (entriesFound c entries)) i
          = (fun i : HookImplementation => !(((entriesFound c entries).map OrderEntry.plugin).contains i.plugin_name)) i := by
      intro i _
      show (!(((entriesFound c entries).map OrderEntry.plugin).contains (applyEnabled (entriesFound c entries) i).plugin_name)) = _
      rw [applyEnabled_plugin_name]
    rw [List.filter_congr hpred, List.map_map]
    refine List.map_congr_left (fun i hi => ?_)
    have hni : i.plugin_name ∉ (entriesFound c entries).map OrderEntry.plugin := by
      have hpi := List.of_mem_filter hi
      intro hmemn
      rw [contains_iff_mem.mpr hmemn] at hpi
      exact Bool.noConfusion hpi
    show toOrderEntry (applyEnabled (entriesFound c entries) i) = toOrderEntry i
    rw [applyEnabled_not_found _ _ hni]

theorem roundtrip_caller (c c' : HookCaller)
    (hN : (implNames c.impls).Nodup) (hN' : (implNames c'.impls).Nodup)
    (hperm : List.Perm (implNames c'.impls) (implNames c.impls))
    (hlen : 1 < c.impls.length) :
    (c'.set_call_order_single c.dispatch_entries).dispatch_entries = c.dispatch_entries := by
  have hkeys : c.dispatch_entries.map OrderEntry.plugin = (implNames c.impls).reverse := by
    unfold HookCaller.dispatch_entries
    rw [List.map_map]
    have h1 : c.impls.reverse.map (OrderEntry.plugin ∘ toOrderEntry)
        = c.impls.reverse.map (fun i => i.plugin_name) :=
      List.map_congr_left (fun i _ => rfl)
    rw [h1, List.map_reverse]
    rfl
  have hE : (c.dispatch_entries.map OrderEntry.plugin).Nodup := by
    rw [hkeys]
    exact List.nodup_reverse.mpr hN
  have hfound : entriesFound c' c.dispatch_entries = c.dispatch_entries := by
    unfold entriesFound
    rw [List.filter_eq_self]
    intro p hp
    have hpk : p.plugin ∈ (implNames c.impls).reverse := by
      rw [← hkeys]
      exact List.mem_map_of_mem OrderEntry.plugin hp
    exact contains_iff_mem.mpr (hperm.mem_iff.mpr (List.mem_reverse.mp hpk))
  have hne : entriesFound c' c.dispatch_entries ≠ [] := by
    rw [hfound]
    have hpos : 0 < c.dispatch_entries.length := by
      unfold HookCaller.dispatch_entries
      rw [List.length_map, List.length_reverse]
      omega
    exact List.ne_nil_of_length_pos hpos
  have hmain := set_call_order_single_found_ne c' c.dispatch_entries hN' hE hne
  rw [hfound] at hmain
  have hrest : c'.impls.reverse.filter
      (fun i => !((c.dispatch_entries.map OrderEntry.plugin).contains i.plugin_name)) = [] := by
    rw [List.filter_eq_nil_iff]
    intro i hi
    have hm : i.plugin_name ∈ c.dispatch_entries.map OrderEntry.plugin := by
      rw [hkeys]
      exact List.mem_reverse.mpr
        (hperm.mem_iff.mp (List.mem_map_of_mem _ (List.mem_reverse.mp hi)))
    rw [contains_iff_mem.mpr hm]
    simp
  rw [hrest, List.map_nil, List.append_nil] at hmain
  unfold HookCaller.dispatch_entries
  exact hmain

theorem call_order_list_lookup (hooks : List (String × HookCaller))
    (hkeys : (hooks.map Prod.fst).Nodup) (h : String × HookCaller)
    (hmem : h ∈ hooks) (hfr : h.2.is_firstresult = true)
    (hlen : 1 < h.2.get_hookimpls.length) :
    alookup (call_order_list hooks) h.1 = some h.2.dispatch_entries := by
  induction hooks with
  | nil => cases hmem
  | cons a rest ih =>
      rw [List.map_cons] at hkeys
      rcases List.nodup_cons.mp hkeys with ⟨ha, hrest⟩
      rcases List.mem_cons.mp hmem with heq | hmem'
      · subst heq
        have hval : (if h.2.is_firstresult = false then none
            else if 1 < h.2.get_hookimpls.length then
              some (h.1, h.2.get_hookimpls.reverse.map toOrderEntry) else none)
            = some (h.1, h.2.get_hookimpls.reverse.map toOrderEntry) := by
          rw [if_neg (by rw [hfr]; exact fun hc => Bool.noConfusion hc), if_pos hlen]
        unfold call_order_list
        rw [List.filterMap_cons, hval]
        show (if (h.1 == h.1) = true then
            some (h.2.get_hookimpls.reverse.map toOrderEntry) else _) = _
        rw [if_pos (beq_self_eq_true h.1)]
        rfl
      · have hne : (a.1 == h.1) = false := by
          cases hq : (a.1 == h.1) with
          | false => rfl
          | true =>
              have hcontra : a.1 ∈ rest.map Prod.fst := by
                rw [beq_iff_eq.mp hq]
                exact List.mem_map_of_mem Prod.fst hmem'
              exact absurd hcontra ha
        unfold call_order_list
        rw [List.filterMap_cons]
        by_cases h1 : a.2.is_firstresult = false
        · rw [if_pos h1]
          exact ih hrest hmem'
        · rw [if_neg h1]
          by_cases h2 : 1 < a.2.get_hookimpls.length
          · rw [if_pos h2]
            show (if (a.1 == h.1) = true then
                some (a.2.get_hookimpls.reverse.map toOrderEntry) else _) = _
            rw [if_neg (by simp [hne])]
            exact ih hrest hmem'
          · rw [if_neg h2]
            exact ih hrest hmem'

theorem import_forall (record : List (String × List OrderEntry))
    (l l' : List (String × HookCaller))
    (hrel : List.Forall₂ (fun h h' : String × HookCaller =>
        h.1 = h'.1 ∧ (implNames h.2.impls).Nodup ∧ (implNames h'.2.impls).Nodup ∧
        List.Perm (implNames h'.2.impls) (implNames h.2.impls)) l l')
    (hlook : ∀ h ∈ l, h.2.is_firstresult = true → 1 < h.2.impls.length →
        alookup record h.1 = some h.2.dispatch_entries) :
    List.Forall₂ (fun h r : String × HookCaller =>
        h.2.is_firstresult = true → 1 < h.2.impls.length →
        r.2.dispatch_entries = h.2.dispatch_entries)
      l (l'.map (fun h' => (h'.1, h'.2.set_call_order_single ((alookup record h'.1).getD [])))) := by
  induction hrel with
  | nil => exact List.Forall₂.nil
  | @cons a b as bs hab htail ih =>
      rw [List.map_cons]
      refine List.Forall₂.cons ?_ (ih ?_)
      · intro hfr hlen
        obtain ⟨hk, hN, hN', hperm⟩ := hab
        have hrec : alookup record b.1 = some a.2.dispatch_entries := by
          rw [← hk]
          exact hlook a (List.mem_cons_self a as) hfr hlen
        show (b.2.set_call_order_single ((alookup record b.1).getD [])).dispatch_entries
            = a.2.dispatch_entries
        rw [hrec]
        exact roundtrip_caller a.2 b.2 hN hN' hperm hlen
      · intro h hh hfr hlen
        exact hlook h (List.mem_cons_of_mem a hh) hfr hlen

/-! ### Claim theorems: call order (C1, C2, C3) -/

/-- C1: for every hook-spec with first-result policy and more than one
implementation, exporting the call order with `call_order` and importing that
record with `set_call_order` on a fresh manager holding the same registered
plugins (same spec names in the spec table, and per spec the same set of
distinct plugin names, in any registration order) reproduces the same
dispatch order, enabled flags included. -/
theorem call_order_roundtrip (pm pm' : PluginManager)
    (hkeys : (pm.hooks.map Prod.fst).Nodup)
    (hrel : List.Forall₂ (fun h h' : String × HookCaller =>
        h.1 = h'.1 ∧ (implNames h.2.impls).Nodup ∧ (implNames h'.2.impls).Nodup ∧
        List.Perm (implNames h'.2.impls) (implNames h.2.impls)) pm.hooks pm'.hooks) :
    List.Forall₂ (fun h r : String × HookCaller =>
        h.2.is_firstresult = true → 1 < h.2.impls.length →
        r.2.dispatch_entries = h.2.dispatch_entries)
      pm.hooks ((pm'.set_call_order pm.call_order).hooks) := by
  show List.Forall₂ _ pm.hooks (pm'.hooks.map _)
  exact import_forall pm.call_order pm.hooks pm'.hooks hrel
    (fun h hh hfr hlen => call_order_list_lookup pm.hooks hkeys h hh hfr hlen)

/-- A manager exporting one first-result spec with two implementations and one
collect-all spec, used as the concrete round-trip instance. -/
def pmW : PluginManager :=
  PluginManager.mk
    [("spec1", HookCaller.mk true [HookImplementation.mk "p1" true, HookImplementation.mk "p2" false]),
     ("spec2", HookCaller.mk false [HookImplementation.mk "p1" true])]

/-- A fresh manager holding the same plugins as `pmW`, registered in a
different order and with different enabled flags. -/
def pmW' : PluginManager :=
  PluginManager.mk
    [("spec1", HookCaller.mk true [HookImplementation.mk "p2" true, HookImplementation.mk "p1" true]),
     ("spec2", HookCaller.mk false [HookImplementation.mk "p1" false])]

/-- Witness for C1 at the concrete managers `pmW` and `pmW'`. -/
theorem call_order_roundtrip_witness :
    List.Forall₂ (fun h r : String × HookCaller =>
        h.2.is_firstresult = true → 1 < h.2.impls.length →
        r.2.dispatch_entries = h.2.dispatch_entries)
      pmW.hooks ((pmW'.set_call_order pmW.call_order).hooks) :=
  call_order_roundtrip pmW pmW' (by decide)
    (List.Forall₂.cons ⟨rfl, by decide, by decide, by decide⟩
      (List.Forall₂.cons ⟨rfl, by decide, by decide, by decide⟩ List.Forall₂.nil))

/-- C2: `set_call_order` never fails when the record names a plugin that has
no implementation for a spec.  For every hook caller: entries naming unknown
plugins are skipped silently; if no named plugin is found the caller is left
completely unchanged (`bring_to_front` is not invoked); otherwise the
resulting dispatch order lists the found entries first, in record order and
with their recorded enabled flags, followed by the remaining implementations
in their previous dispatch order with their flags untouched. -/
theorem set_call_order_skips_missing (pm : PluginManager)
    (new_order : List (String × List OrderEntry)) :
    List.Forall₂ (fun h r : String × HookCaller =>
        r.1 = h.1 ∧
        ((implNames h.2.impls).Nodup →
          ((((alookup new_order h.1).getD []).map OrderEntry.plugin).Nodup) →
          ((entriesFound h.2 ((alookup new_order h.1).getD []) = [] → r.2 = h.2) ∧
           (entriesFound h.2 ((alookup new_order h.1).getD []) ≠ [] →
             (r.2.impls.reverse).map toOrderEntry
               = entriesFound h.2 ((alookup new_order h.1).getD [])
                 ++ (h.2.impls.reverse.filter (fun i =>
                       !(((entriesFound h.2 ((alookup new_order h.1).getD [])).map OrderEntry.plugin).contains i.plugin_name))).map toOrderEntry))))
      pm.hooks ((pm.set_call_order new_order).hooks) := by
  show List.Forall₂ _ pm.hooks (pm.hooks.map _)
  rw [List.forall₂_map_right_iff, List.forall₂_same]
  intro h _
  exact ⟨rfl, fun hN hE =>
    ⟨fun hnil => set_call_order_single_found_nil _ _ hnil,
     fun hne => set_call_order_single_found_ne _ _ hN hE hne⟩⟩

/-- C3: the record returned by `call_order` contains an entry for a hook-spec
name exactly when that spec is first-result and currently has more than one
implementation. -/
theorem call_order_exports_iff (pm : PluginManager) (s : String) :
    (∃ es, (s, es) ∈ pm.call_order)
      ↔ ∃ c : HookCaller, (s, c) ∈ pm.hooks ∧ c.is_firstresult = true
          ∧ 1 < c.get_hookimpls.length := by
  unfold PluginManager.call_order call_order_list
  constructor
  · rintro ⟨es, hes⟩
    rcases List.mem_filterMap.mp hes with ⟨h, hh, hf⟩
    by_cases h1 : h.2.is_firstresult = false
    · rw [if_pos h1] at hf
      cases hf
    · rw [if_neg h1] at hf
      by_cases h2 : 1 < h.2.get_hookimpls.length
      · rw [if_pos h2] at hf
        have hfst : h.1 = s := congrArg Prod.fst (Option.some.inj hf)
        refine ⟨h.2, ?_, ?_, h2⟩
        · have hh' : (h.1, h.2) ∈ pm.hooks := hh
          rw [hfst] at hh'
          exact hh'
        · cases hb : h.2.is_firstresult with
          | true => rfl
          | false => exact absurd hb h1
      · rw [if_neg h2] at hf
        cases hf
  · rintro ⟨c, hc, hfr, hlen⟩
    refine ⟨c.get_hookimpls.reverse.map toOrderEntry, List.mem_filterMap.mpr ⟨(s, c), hc, ?_⟩⟩
    rw [if_neg (by rw [hfr]; exact fun hcon => Bool.noConfusion hcon), if_pos hlen]

/-! ### Claim theorems: get_plugin_widget (C4, C10) -/

theorem empty_string_isEmpty : "".isEmpty = true := rfl

/-- C4: `get_plugin_widget` fails with the no-widgets `KeyError` when the
plugin has no dock widgets, with the ambiguity `ValueError` when the widget
name is omitted and the plugin has more than one widget, with the
missing-widget `KeyError` when a (nonempty) widget name is given but absent,
and returns the unique `(factory, options)` pair without requiring a name
when the plugin has exactly one widget. -/
theorem get_plugin_widget_spec (reg : DockRegistry) (pn : String) :
    ((alookup reg pn).getD [] = [] → ∀ wn,
        get_plugin_widget reg pn wn = Except.error (WidgetLookupError.noWidgets pn))
    ∧ (∀ m, alookup reg pn = some m → 1 < m.length →
        get_plugin_widget reg pn none = Except.error (WidgetLookupError.ambiguous pn))
    ∧ (∀ m wn, alookup reg pn = some m → m ≠ [] → wn ≠ "" → alookup m wn = none →
        get_plugin_widget reg pn (some wn) = Except.error (WidgetLookupError.missingWidget pn wn))
    ∧ (∀ k v, alookup reg pn = some [(k, v)] →
        get_plugin_widget reg pn none = Except.ok v) := by
  refine ⟨?_, ?_, ?_, ?_⟩
  · intro h wn
    simp [get_plugin_widget, h]
  · intro m hm hlen
    have hne : m ≠ [] := List.ne_nil_of_length_pos (by omega)
    simp [get_plugin_widget, hm, List.isEmpty_iff, hne, hlen, empty_string_isEmpty]
  · intro m wn hm hne hwn hnone
    simp [get_plugin_widget, hm, List.isEmpty_iff, hne, String.isEmpty_iff, hwn, hnone]
  · intro k v hm
    simp [get_plugin_widget, hm, empty_string_isEmpty]

/-- C10: `get_plugin_widget` treats an empty-string widget name exactly like
an omitted one — the two calls agree on every registry; in particular with
exactly one widget that widget is returned, and with more than one the
ambiguity `ValueError` is raised rather than a missing-widget error for the
empty name. -/
theorem get_plugin_widget_empty_name (reg : DockRegistry) (pn : String) :
    get_plugin_widget reg pn (some "") = get_plugin_widget reg pn none
    ∧ (∀ k v, alookup reg pn = some [(k, v)] →
        get_plugin_widget reg pn (some "") = Except.ok v)
    ∧ (∀ m, alookup reg pn = some m → 1 < m.length →
        get_plugin_widget reg pn (some "") = Except.error (WidgetLookupError.ambiguous pn)) := by
  refine ⟨rfl, ?_, ?_⟩
  · intro k v hm
    simp [get_plugin_widget, hm, empty_string_isEmpty]
  · intro m hm hlen
    have hne : m ≠ [] := List.ne_nil_of_length_pos (by omega)
    simp [get_plugin_widget, hm, List.isEmpty_iff, hne, hlen, empty_string_isEmpty]

/-- A concrete dock-widget registry: plugin `pa` provides one widget, plugin
`pb` provides two. -/
def regW4 : DockRegistry :=
  [("pa", [("w", (PyObj.function "f", []))]),
   ("pb", [("w1", (PyObj.function "g", [])), ("w2", (PyObj.function "h", []))])]

/-- Witness for C4 at the concrete registry `regW4`. -/
theorem get_plugin_widget_spec_witness :
    get_plugin_widget regW4 "missing" none = Except.error (WidgetLookupError.noWidgets "missing")
    ∧ get_plugin_widget regW4 "pb" none = Except.error (WidgetLookupError.ambiguous "pb")
    ∧ get_plugin_widget regW4 "pa" (some "z") = Except.error (WidgetLookupError.missingWidget "pa" "z")
    ∧ get_plugin_widget regW4 "pa" none = Except.ok (PyObj.function "f", []) :=
  ⟨(get_plugin_widget_spec regW4 "missing").1 rfl none,
   (get_plugin_widget_spec regW4 "pb").2.1 _ rfl (by decide),
   (get_plugin_widget_spec regW4 "pa").2.2.1 _ "z" rfl (List.cons_ne_nil _ _) (by decide) rfl,
   (get_plugin_widget_spec regW4 "pa").2.2.2 "w" _ rfl⟩

/-- A concrete dock-widget registry for the empty-name claim. -/
def regW10 : DockRegistry :=
  [("pa", [("w", (PyObj.function "f", []))]),
   ("pb", [("w1", (PyObj.function "g", [])), ("w2", (PyObj.function "h", []))])]

/-- Witness for C10 at the concrete registry `regW10`. -/
theorem get_plugin_widget_empty_name_witness :
    get_plugin_widget regW10 "pa" (some "") = Except.ok (PyObj.function "f", [])
    ∧ get_plugin_widget regW10 "pb" (some "")
        = Except.error (WidgetLookupError.ambiguous "pb") :=
  ⟨(get_plugin_widget_empty_name regW10 "pa").2.1 "w" _ rfl,
   (get_plugin_widget_empty_name regW10 "pb").2.2 _ rfl (by decide)⟩

/-! ### Claim theorems: registry overwrite (C5) and dock-widget validation (C6) -/

/-- C5 counterexample: re-registering sample data under an existing
`(plugin, name)` key overwrites the stored entry but emits NO warning — the
warning list of `register_sample_data` is empty, refuting the claim that all
three registries warn on a collision. -/
theorem sample_overwrite_no_warning :
    register_sample_data (PyObj.dict [("foo", PyObj.str "x")]) "p"
        [("p", [("foo", [("data", PyObj.str "y"), ("display_name", PyObj.str "foo")])])]
      = ([("p", [("foo", [("data", PyObj.str "x"), ("display_name", PyObj.str "foo")])])], []) := rfl

theorem sample_item_step_shorthand (pn nm : String) (v : PyObj)
    (acc : List (String × KWargs) × List Warning)
    (hv : sample_data_valid v = true) :
    sample_item_step pn acc (nm, v)
      = (aset acc.1 nm [("data", v), ("display_name", PyObj.str nm)], acc.2) := by
  cases v <;>
    first
      | rfl
      | exact Bool.noConfusion hv

/-- C5 (amended): registering a second item under the same plugin and item
name overwrites the previous entry and leaves exactly one entry for that key
in each of the three registries; the dock-widget and function-widget
registries emit a non-fatal overwrite warning, while the sample-data registry
overwrites silently with no warning at all. -/
theorem registry_overwrite_behavior :
    (∀ (regD : DockRegistry) (pn nm cn : String) (cls : PyObj)
        (m : List (String × (PyObj × KWargs))) (old : PyObj × KWargs),
      (cls = PyObj.function cn ∨ cls = PyObj.callableClass cn) →
      alookup regD pn = some m → alookup m nm = some old →
      (m.map Prod.fst).Nodup → nm ≠ "" →
      register_dock_widget (PyObj.tuple [cls, PyObj.dict [("name", PyObj.str nm)]]) pn regD
          = (aset regD pn (aset m nm (cls, [("name", PyObj.str nm)])),
             [Warning.dockOverwrite pn nm])
        ∧ alookup (aset m nm (cls, [("name", PyObj.str nm)])) nm
            = some (cls, [("name", PyObj.str nm)])
        ∧ ((aset m nm (cls, [("name", PyObj.str nm)])).map Prod.fst).count nm = 1)
    ∧ (∀ (regF : FuncRegistry) (pn fn : String) (m : List (String × PyObj)) (old : PyObj),
      alookup regF pn = some m → alookup m (underscore_to_spaces fn) = some old →
      (m.map Prod.fst).Nodup →
      register_function_widget (PyObj.function fn) pn regF
          = (aset regF pn (aset m (underscore_to_spaces fn) (PyObj.function fn)),
             [Warning.functionOverwrite pn (underscore_to_spaces fn)])
        ∧ alookup (aset m (underscore_to_spaces fn) (PyObj.function fn)) (underscore_to_spaces fn)
            = some (PyObj.function fn)
        ∧ ((aset m (underscore_to_spaces fn) (PyObj.function fn)).map Prod.fst).count
            (underscore_to_spaces fn) = 1)
    ∧ (∀ (regS : SampleRegistry) (pn nm : String) (v : PyObj)
        (m : List (String × KWargs)) (old : KWargs),
      sample_data_valid v = true → v.isDict = false →
      alookup regS pn = some m → alookup m nm = some old → (m.map Prod.fst).Nodup →
      (register_sample_data (PyObj.dict [(nm, v)]) pn regS).2 = []
        ∧ alookup (register_sample_data (PyObj.dict [(nm, v)]) pn regS).1 pn
            = some (aset m nm [("data", v), ("display_name", PyObj.str nm)])
        ∧ alookup (aset m nm [("data", v), ("display_name", PyObj.str nm)]) nm
            = some [("data", v), ("display_name", PyObj.str nm)]
        ∧ ((aset m nm [("data", v), ("display_name", PyObj.str nm)]).map Prod.fst).count nm = 1) := by
  refine ⟨?_, ?_, ?_⟩
  · intro regD pn nm cn cls m old hcls hm hold hnd hnm
    have hnmE : nm.isEmpty = false := by
      cases hq : nm.isEmpty with
      | false => rfl
      | true => exact absurd (by rwa [String.isEmpty_iff] at hq) hnm
    have hamem2 : amem m nm = true := amem_true_of_alookup_some hold
    rcases hcls with rfl | rfl
    · refine ⟨?_, alookup_aset_self _ _ _, count_keys_aset_eq_one _ _ _ hnd hamem2⟩
      show dock_widget_store pn (if nm.isEmpty = true then camel_to_spaces cn else nm)
          (PyObj.function cn) [("name", PyObj.str nm)] regD []
        = (aset regD pn (aset m nm (PyObj.function cn, [("name", PyObj.str nm)])),
           [Warning.dockOverwrite pn nm])
      rw [if_neg (by simp [hnmE])]
      unfold dock_widget_store
      rw [hm]
      show (aset regD pn (aset m nm (PyObj.function cn, [("name", PyObj.str nm)])),
          if amem m nm = true then [] ++ [Warning.dockOverwrite pn nm] else [])
        = (aset regD pn (aset m nm (PyObj.function cn, [("name", PyObj.str nm)])),
           [Warning.dockOverwrite pn nm])
      rw [if_pos hamem2]
      rfl
    · refine ⟨?_, alookup_aset_self _ _ _, count_keys_aset_eq_one _ _ _ hnd hamem2⟩
      show dock_widget_store pn (if nm.isEmpty = true then camel_to_spaces cn else nm)
          (PyObj.callableClass cn) [("name", PyObj.str nm)] regD []
        = (aset regD pn (aset m nm (PyObj.callableClass cn, [("name", PyObj.str nm)])),
           [Warning.dockOverwrite pn nm])
      rw [if_neg (by simp [hnmE])]
      unfold dock_widget_store
      rw [hm]
      show (aset regD pn (aset m nm (PyObj.callableClass cn, [("name", PyObj.str nm)])),
          if amem m nm = true then [] ++ [Warning.dockOverwrite pn nm] else [])
        = (aset regD pn (aset m nm (PyObj.callableClass cn, [("name", PyObj.str nm)])),
           [Warning.dockOverwrite pn nm])
      rw [if_pos hamem2]
      rfl
  · intro regF pn fn m old hm hold hnd
    have hamem2 : amem m (underscore_to_spaces fn) = true := amem_true_of_alookup_some hold
    refine ⟨?_, alookup_aset_self _ _ _, count_keys_aset_eq_one _ _ _ hnd hamem2⟩
    show function_widget_store pn (underscore_to_spaces fn) (PyObj.function fn) regF [] = _
    unfold function_widget_store
    rw [hm]
    show (aset regF pn (aset m (underscore_to_spaces fn) (PyObj.function fn)),
        if amem m (underscore_to_spaces fn) = true
        then [] ++ [Warning.functionOverwrite pn (underscore_to_spaces fn)] else []) = _
    rw [if_pos hamem2]
    rfl
  · intro regS pn nm v m old hv hvd hm hold hnd
    have hamem : amem regS pn = true := amem_true_of_alookup_some hm
    have hamem2 : amem m nm = true := amem_true_of_alookup_some hold
    have hpair : register_sample_data (PyObj.dict [(nm, v)]) pn regS
        = (updatePlugin (if amem regS pn then regS else regS ++ [(pn, [])]) pn
            [(nm, [("data", v), ("display_name", PyObj.str nm)])], []) := by
      show (updatePlugin (if amem regS pn then regS else regS ++ [(pn, [])]) pn
          (sample_item_step pn ([], []) (nm, v)).1, (sample_item_step pn ([], []) (nm, v)).2) = _
      rw [sample_item_step_shorthand pn nm v ([], []) hv]
      rfl
    refine ⟨?_, ?_, alookup_aset_self _ _ _, count_keys_aset_eq_one _ _ _ hnd hamem2⟩
    · rw [hpair]
    · rw [hpair, if_pos hamem,
        updatePlugin_of_alookup_some regS pn m [(nm, [("data", v), ("display_name", PyObj.str nm)])] hm]
      rfl

/-- A dock-widget registry with an existing entry named `nice` for plugin `p`. -/
def regD5 : DockRegistry := [("p", [("nice", (PyObj.function "old", []))])]

/-- A function-widget registry with an existing entry named `do thing`. -/
def regF5 : FuncRegistry := [("p", [("do thing", PyObj.function "old")])]

/-- A sample registry with an existing entry named `foo` for plugin `p`. -/
def regS5 : SampleRegistry :=
  [("p", [("foo", [("data", PyObj.str "y"), ("display_name", PyObj.str "foo")])])]

/-- Witness for (amended) C5 at concrete registries: the dock and function
registries overwrite and warn, the sample registry overwrites silently. -/
theorem registry_overwrite_behavior_witness :
    register_dock_widget (PyObj.tuple [PyObj.function "W", PyObj.dict [("name", PyObj.str "nice")]]) "p" regD5
        = (aset regD5 "p" (aset [("nice", (PyObj.function "old", []))] "nice"
            (PyObj.function "W", [("name", PyObj.str "nice")])), [Warning.dockOverwrite "p" "nice"])
    ∧ register_function_widget (PyObj.function "do_thing") "p" regF5
        = (aset regF5 "p" (aset [("do thing", PyObj.function "old")] (underscore_to_spaces "do_thing")
            (PyObj.function "do_thing")), [Warning.functionOverwrite "p" (underscore_to_spaces "do_thing")])
    ∧ (register_sample_data (PyObj.dict [("foo", PyObj.str "x")]) "p" regS5).2 = [] :=
  ⟨(registry_overwrite_behavior.1 regD5 "p" "nice" "W" (PyObj.function "W") _ _
      (Or.inl rfl) rfl rfl (by decide) (by decide)).1,
   (registry_overwrite_behavior.2.1 regF5 "p" "do_thing" _ _ rfl rfl (by decide)).1,
   (registry_overwrite_behavior.2.2 regS5 "p" "foo" (PyObj.str "x") _ _
      rfl rfl rfl rfl (by decide)).1⟩

/-- C6: a non-callable dock-widget item — given alone, inside a list, or as
the first element of a tuple — is discarded with a warning naming the plugin:
the registry is completely unchanged, no entry appears for the plugin, and no
exception escapes (the function is total and returns the untouched registry). -/
theorem dock_widget_rejects_non_callable (reg : DockRegistry) (pn : String) (item : PyObj)
    (h1 : item.callable = false) (h2 : item.isTuple = false) (h3 : item.isPyList = false) :
    register_dock_widget item pn reg = (reg, [Warning.nonCallableWidget pn])
    ∧ register_dock_widget (PyObj.pylist [item]) pn reg = (reg, [Warning.nonCallableWidget pn])
    ∧ ∀ rest : List PyObj, register_dock_widget (PyObj.tuple (item :: rest)) pn reg
        = (reg, [Warning.nonCallableWidget pn]) := by
  cases item <;>
    first
      | exact Bool.noConfusion h1
      | exact Bool.noConfusion h2
      | exact Bool.noConfusion h3
      | exact ⟨rfl, rfl, fun rest => rfl⟩

/-- Witness for C6: an integer is not callable and is rejected alone and as
the head of a tuple, leaving the registry empty. -/
theorem dock_widget_rejects_non_callable_witness :
    register_dock_widget (PyObj.intVal 7) "p" [] = ([], [Warning.nonCallableWidget "p"])
    ∧ register_dock_widget (PyObj.tuple [PyObj.intVal 7, PyObj.dict []]) "p" []
        = ([], [Warning.nonCallableWidget "p"]) :=
  ⟨(dock_widget_rejects_non_callable [] "p" (PyObj.intVal 7) rfl rfl rfl).1,
   (dock_widget_rejects_non_callable [] "p" (PyObj.intVal 7) rfl rfl rfl).2.2 [PyObj.dict []]⟩

/-! ### Claim theorems: sample-data normalization (C7) -/

theorem sample_item_step_invalid (pn nm : String) (v : PyObj)
    (acc : List (String × KWargs) × List Warning)
    (hv : sample_data_valid v = false) (hvd : v.isDict = false) :
    sample_item_step pn acc (nm, v) = (acc.1, acc.2 ++ [Warning.invalidSampleValue pn nm]) := by
  cases v <;>
    first
      | rfl
      | exact Bool.noConfusion hv
      | exact Bool.noConfusion hvd

theorem register_sample_data_single (reg : SampleRegistry) (pn nm : String) (v : PyObj)
    (hpn : amem reg pn = false) (st : List (String × KWargs) × List Warning)
    (hstep : sample_item_step pn ([], []) (nm, v) = st) :
    register_sample_data (PyObj.dict [(nm, v)]) pn reg
      = (reg ++ [(pn, dict_update [] st.1)], st.2) := by
  show (updatePlugin (if amem reg pn then reg else reg ++ [(pn, [])]) pn
      (sample_item_step pn ([], []) (nm, v)).1, (sample_item_step pn ([], []) (nm, v)).2) = _
  rw [hstep, if_neg (by simp [hpn]), updatePlugin_append_fresh reg pn [] st.1 hpn]

/-- C7: `register_sample_data` normalizes each entry of the mapping.  A
shorthand value (callable, string or path) under key `nm` is coerced into the
dict with `data` equal to the value and `display_name` equal to `nm`; a dict
value is accepted as-is only when it carries both the `data` and the
`display_name` key; a value whose `data` field is neither callable nor a
string or path is discarded with a warning (in both the shorthand and the
dict shape). -/
theorem register_sample_data_normalizes (reg : SampleRegistry) (pn nm : String)
    (hpn : amem reg pn = false) :
    (∀ v : PyObj, sample_data_valid v = true → v.isDict = false →
      register_sample_data (PyObj.dict [(nm, v)]) pn reg
        = (reg ++ [(pn, [(nm, [("data", v), ("display_name", PyObj.str nm)])])], []))
    ∧ (∀ dd : KWargs, ((alookup dd "data").isNone || (alookup dd "display_name").isNone) = true →
      register_sample_data (PyObj.dict [(nm, PyObj.dict dd)]) pn reg
        = (reg ++ [(pn, [])], [Warning.invalidSampleDict pn nm]))
    ∧ (∀ (dd : KWargs) (v w : PyObj), alookup dd "data" = some v →
      alookup dd "display_name" = some w → sample_data_valid v = false →
      register_sample_data (PyObj.dict [(nm, PyObj.dict dd)]) pn reg
        = (reg ++ [(pn, [])], [Warning.invalidSampleValue pn nm]))
    ∧ (∀ v : PyObj, sample_data_valid v = false → v.isDict = false →
      register_sample_data (PyObj.dict [(nm, v)]) pn reg
        = (reg ++ [(pn, [])], [Warning.invalidSampleValue pn nm]))
    ∧ (∀ (dd : KWargs) (v w : PyObj), alookup dd "data" = some v →
      alookup dd "display_name" = some w → sample_data_valid v = true →
      register_sample_data (PyObj.dict [(nm, PyObj.dict dd)]) pn reg
        = (reg ++ [(pn, [(nm, dd)])], [])) := by
  refine ⟨?_, ?_, ?_, ?_, ?_⟩
  · intro v hv hvd
    rw [register_sample_data_single reg pn nm v hpn _
      (sample_item_step_shorthand pn nm v ([], []) hv)]
    rfl
  · intro dd hk
    have hstep : sample_item_step pn ([], []) (nm, PyObj.dict dd)
        = ([], [Warning.invalidSampleDict pn nm]) := by
      show (if ((alookup dd "data").isNone || (alookup dd "display_name").isNone) = true
          then (([] : List (String × KWargs)), ([] : List Warning) ++ [Warning.invalidSampleDict pn nm])
          else if sample_data_valid ((alookup dd "data").getD PyObj.noneVal) = true
          then (aset ([] : List (String × KWargs)) nm dd, ([] : List Warning))
          else (([] : List (String × KWargs)), ([] : List Warning) ++ [Warning.invalidSampleValue pn nm]))
        = ([], [Warning.invalidSampleDict pn nm])
      rw [if_pos hk]
      rfl
    rw [register_sample_data_single reg pn nm (PyObj.dict dd) hpn _ hstep]
    rfl
  · intro dd v w hdata hdisp hv
    have hstep : sample_item_step pn ([], []) (nm, PyObj.dict dd)
        = ([], [Warning.invalidSampleValue pn nm]) := by
      show (if ((alookup dd "data").isNone || (alookup dd "display_name").isNone) = true
          then (([] : List (String × KWargs)), ([] : List Warning) ++ [Warning.invalidSampleDict pn nm])
          else if sample_data_valid ((alookup dd "data").getD PyObj.noneVal) = true
          then (aset ([] : List (String × KWargs)) nm dd, ([] : List Warning))
          else (([] : List (String × KWargs)), ([] : List Warning) ++ [Warning.invalidSampleValue pn nm]))
        = ([], [Warning.invalidSampleValue pn nm])
      rw [hdata, hdisp]
      simp [hv]
    rw [register_sample_data_single reg pn nm (PyObj.dict dd) hpn _ hstep]
    rfl
  · intro v hv hvd
    rw [register_sample_data_single reg pn nm v hpn _
      (sample_item_step_invalid pn nm v ([], []) hv hvd)]
    rfl
  · intro dd v w hdata hdisp hv
    have hstep : sample_item_step pn ([], []) (nm, PyObj.dict dd)
        = (aset [] nm dd, []) := by
      show (if ((alookup dd "data").isNone || (alookup dd "display_name").isNone) = true
          then (([] : List (String × KWargs)), ([] : List Warning) ++ [Warning.invalidSampleDict pn nm])
          else if sample_data_valid ((alookup dd "data").getD PyObj.noneVal) = true
          then (aset ([] : List (String × KWargs)) nm dd, ([] : List Warning))
          else (([] : List (String × KWargs)), ([] : List Warning) ++ [Warning.invalidSampleValue pn nm]))
        = (aset [] nm dd, [])
      rw [hdata, hdisp]
      simp [hv]
    rw [register_sample_data_single reg pn nm (PyObj.dict dd) hpn _ hstep]
    rfl

/-- Witness for C7: a callable under key `foo` is stored with callable `data`
and `display_name` equal to `foo`; a dict missing `display_name` and an
integer shorthand are both rejected with the corresponding warnings. -/
theorem register_sample_data_normalizes_witness :
    register_sample_data (PyObj.dict [("foo", PyObj.function "make")]) "pluginA" []
        = ([("pluginA", [("foo", [("data", PyObj.function "make"), ("display_name", PyObj.str "foo")])])], [])
    ∧ (PyObj.function "make").callable = true
    ∧ register_sample_data (PyObj.dict [("bad", PyObj.dict [("data", PyObj.str "x")])]) "p" []
        = ([("p", [])], [Warning.invalidSampleDict "p" "bad"])
    ∧ register_sample_data (PyObj.dict [("bad", PyObj.intVal 3)]) "p" []
        = ([("p", [])], [Warning.invalidSampleValue "p" "bad"]) :=
  ⟨(register_sample_data_normalizes [] "pluginA" "foo" rfl).1 (PyObj.function "make") rfl rfl,
   rfl,
   (register_sample_data_normalizes [] "p" "bad" rfl).2.1 [("data", PyObj.str "x")] rfl,
   (register_sample_data_normalizes [] "p" "bad" rfl).2.2.2.1 (PyObj.intVal 3) rfl rfl⟩

/-! ### Claim theorems: function-widget acceptance (C8) and naming (C9) -/

/-- C8 counterexample: a callable class IS callable, yet
`register_function_widget` discards it with a warning instead of accepting it
— the code accepts only plain functions (`isinstance(func, FunctionType)`),
refuting the claim that any callable item is accepted. -/
theorem function_widget_rejects_callable_class :
    PyObj.callable (PyObj.callableClass "Widget") = true
    ∧ register_function_widget (PyObj.callableClass "Widget") "p" []
        = ([], [Warning.nonFunctionWidget "p"]) := ⟨rfl, rfl⟩

/-- C8 (amended): every item that is a plain function (`FunctionType`), given
alone or as an element of a list, is accepted by `register_function_widget`
and stored in the function-widget registry, while every other item — callable
or not — is discarded with a warning. -/
theorem function_widget_accepts_functions (reg : FuncRegistry) (pn fn : String)
    (hpn : amem reg pn = false) :
    register_function_widget (PyObj.function fn) pn reg
        = (reg ++ [(pn, [(underscore_to_spaces fn, PyObj.function fn)])], [])
    ∧ register_function_widget (PyObj.pylist [PyObj.function fn]) pn reg
        = (reg ++ [(pn, [(underscore_to_spaces fn, PyObj.function fn)])], [])
    ∧ ∀ item : PyObj, item.isFunction = false → item.isPyList = false →
        register_function_widget item pn reg = (reg, [Warning.nonFunctionWidget pn]) := by
  have hfirst : register_function_widget (PyObj.function fn) pn reg
      = (reg ++ [(pn, [(underscore_to_spaces fn, PyObj.function fn)])], []) := by
    show function_widget_store pn (underscore_to_spaces fn) (PyObj.function fn) reg [] = _
    unfold function_widget_store
    rw [alookup_eq_none_of_amem_false reg pn hpn]
    show (aset reg pn [(underscore_to_spaces fn, PyObj.function fn)], ([] : List Warning)) = _
    rw [aset_of_amem_false reg pn _ hpn]
  refine ⟨hfirst, hfirst, ?_⟩
  intro item h1 h2
  cases item <;>
    first
      | exact Bool.noConfusion h1
      | exact Bool.noConfusion h2
      | rfl

/-- Witness for (amended) C8: a plain function named with an underscore is
accepted, a string item is rejected with a warning. -/
theorem function_widget_accepts_functions_witness :
    register_function_widget (PyObj.function "do_thing") "p" []
        = ([("p", [("do thing", PyObj.function "do_thing")])], [])
    ∧ register_function_widget (PyObj.str "oops") "p" []
        = ([], [Warning.nonFunctionWidget "p"]) :=
  ⟨(function_widget_accepts_functions [] "p" "do_thing" rfl).1,
   (function_widget_accepts_functions [] "p" "do_thing" rfl).2.2 (PyObj.str "oops") rfl rfl⟩

/-- C9: an accepted dock-widget item with no explicit name in its options is
stored under the camel-case-to-spaced-words transform of the callable's own
identifier; an explicit nonempty name supplied via the options mapping takes
precedence; an accepted function-widget item is stored under the callable's
identifier with underscores replaced by spaces. -/
theorem widget_default_naming (pn : String) :
    (∀ (regD : DockRegistry) (cn : String) (cls : PyObj),
      (cls = PyObj.function cn ∨ cls = PyObj.callableClass cn) → amem regD pn = false →
      register_dock_widget cls pn regD
        = (regD ++ [(pn, [(camel_to_spaces cn, (cls, []))])], []))
    ∧ (∀ (regD : DockRegistry) (cn s : String) (cls : PyObj),
      (cls = PyObj.function cn ∨ cls = PyObj.callableClass cn) → amem regD pn = false → s ≠ "" →
      register_dock_widget (PyObj.tuple [cls, PyObj.dict [("name", PyObj.str s)]]) pn regD
        = (regD ++ [(pn, [(s, (cls, [("name", PyObj.str s)]))])], []))
    ∧ (∀ (regF : FuncRegistry) (fn : String), amem regF pn = false →
      register_function_widget (PyObj.function fn) pn regF
        = (regF ++ [(pn, [(underscore_to_spaces fn, PyObj.function fn)])], [])) := by
  refine ⟨?_, ?_, ?_⟩
  · intro regD cn cls hcls hpn
    rcases hcls with rfl | rfl
    · show dock_widget_store pn (camel_to_spaces cn) (PyObj.function cn) [] regD [] = _
      unfold dock_widget_store
      rw [alookup_eq_none_of_amem_false regD pn hpn]
      show (aset regD pn [(camel_to_spaces cn, (PyObj.function cn, []))], ([] : List Warning)) = _
      rw [aset_of_amem_false regD pn _ hpn]
    · show dock_widget_store pn (camel_to_spaces cn) (PyObj.callableClass cn) [] regD [] = _
      unfold dock_widget_store
      rw [alookup_eq_none_of_amem_false regD pn hpn]
      show (aset regD pn [(camel_to_spaces cn, (PyObj.callableClass cn, []))], ([] : List Warning)) = _
      rw [aset_of_amem_false regD pn _ hpn]
  · intro regD cn s cls hcls hpn hs
    have hsE : s.isEmpty = false := by
      cases hq : s.isEmpty with
      | false => rfl
      | true => exact absurd (by rwa [String.isEmpty_iff] at hq) hs
    rcases hcls with rfl | rfl
    · show dock_widget_store pn (if s.isEmpty = true then camel_to_spaces cn else s)
          (PyObj.function cn) [("name", PyObj.str s)] regD [] = _
      rw [if_neg (by simp [hsE])]
      unfold dock_widget_store
      rw [alookup_eq_none_of_amem_false regD pn hpn]
      show (aset regD pn [(s, (PyObj.function cn, [("name", PyObj.str s)]))], ([] : List Warning)) = _
      rw [aset_of_amem_false regD pn _ hpn]
    · show dock_widget_store pn (if s.isEmpty = true then camel_to_spaces cn else s)
          (PyObj.callableClass cn) [("name", PyObj.str s)] regD [] = _
      rw [if_neg (by simp [hsE])]
      unfold dock_widget_store
      rw [alookup_eq_none_of_amem_false regD pn hpn]
      show (aset regD pn [(s, (PyObj.callableClass cn, [("name", PyObj.str s)]))], ([] : List Warning)) = _
      rw [aset_of_amem_false regD pn _ hpn]
  · intro regF fn hpn
    show function_widget_store pn (underscore_to_spaces fn) (PyObj.function fn) regF [] = _
    unfold function_widget_store
    rw [alookup_eq_none_of_amem_false regF pn hpn]
    show (aset regF pn [(underscore_to_spaces fn, PyObj.function fn)], ([] : List Warning)) = _
    rw [aset_of_amem_false regF pn _ hpn]

/-- Witness for C9: `MyWidget` becomes `My Widget` by default, an explicit
`nice` name wins, and `do_thing` becomes `do thing`. -/
theorem widget_default_naming_witness :
    register_dock_widget (PyObj.callableClass "MyWidget") "p" []
        = ([("p", [("My Widget", (PyObj.callableClass "MyWidget", []))])], [])
    ∧ register_dock_widget (PyObj.tuple [PyObj.callableClass "MyWidget", PyObj.dict [("name", PyObj.str "nice")]]) "p" []
        = ([("p", [("nice", (PyObj.callableClass "MyWidget", [("name", PyObj.str "nice")]))])], [])
    ∧ register_function_widget (PyObj.function "do_thing") "p" []
        = ([("p", [("do thing", PyObj.function "do_thing")])], []) :=
  ⟨(widget_default_naming "p").1 [] "MyWidget" (PyObj.callableClass "MyWidget") (Or.inr rfl) rfl,
   (widget_default_naming "p").2.1 [] "MyWidget" "nice" (PyObj.callableClass "MyWidget")
     (Or.inr rfl) rfl (by decide),
   (widget_default_naming "p").2.2 [] "do_thing" rfl⟩

/-- A caller with two implementations, for the skip-missing witness. -/
def pmW2 : PluginManager :=
  PluginManager.mk
    [("s", HookCaller.mk true [HookImplementation.mk "p1" true, HookImplementation.mk "p2" true])]

/-- A call-order record naming a plugin `ghost` that has no implementation. -/
def orderW2 : List (String × List OrderEntry) :=
  [("s", [OrderEntry.mk "ghost" false, OrderEntry.mk "p2" false, OrderEntry.mk "p1" true])]

/-- Witness for C2 at the concrete manager `pmW2` and record `orderW2`. -/
theorem set_call_order_skips_missing_witness :
    List.Forall₂ (fun h r : String × HookCaller =>
        r.1 = h.1 ∧
        ((implNames h.2.impls).Nodup →
          ((((alookup orderW2 h.1).getD []).map OrderEntry.plugin).Nodup) →
          ((entriesFound h.2 ((alookup orderW2 h.1).getD []) = [] → r.2 = h.2) ∧
           (entriesFound h.2 ((alookup orderW2 h.1).getD []) ≠ [] →
             (r.2.impls.reverse).map toOrderEntry
               = entriesFound h.2 ((alookup orderW2 h.1).getD [])
                 ++ (h.2.impls.reverse.filter (fun i =>
                       !(((entriesFound h.2 ((alookup orderW2 h.1).getD [])).map OrderEntry.plugin).contains i.plugin_name))).map toOrderEntry))))
      pmW2.hooks ((pmW2.set_call_order orderW2).hooks) :=
  set_call_order_skips_missing pmW2 orderW2

/-- A manager with one qualifying and one non-qualifying spec, for the
export-condition witness. -/
def pmW3 : PluginManager :=
  PluginManager.mk
    [("spec1", HookCaller.mk true [HookImplementation.mk "p1" true, HookImplementation.mk "p2" false]),
     ("spec2", HookCaller.mk false [HookImplementation.mk "p1" true, HookImplementation.mk "p2" true])]

/-- Witness for C3: `spec1` (first-result, two implementations) appears in
the exported record of `pmW3`. -/
theorem call_order_exports_iff_witness :
    ∃ es, ("spec1", es) ∈ pmW3.call_order :=
  (call_order_exports_iff pmW3 "spec1").mpr
    ⟨HookCaller.mk true [HookImplementation.mk "p1" true, HookImplementation.mk "p2" false],
     by decide, rfl, by decide⟩
